import Mathlib

/-!
Verification of the masoria-lang line-oriented script parser
(src/src/parser.ts) against its natural-language specification.

The TypeScript source is shallowly embedded: JavaScript strings are
Lean `String`s manipulated through their underlying `List Char`;
JavaScript runtime failures (dereferencing `undefined`) and `throw`n
errors are modelled with `Except Err`; JavaScript objects used as
string-keyed maps are association lists in insertion order.
-/

namespace Masoria

/-- The whitespace class used by the source's regular expressions
(JS regex class matching space, tab, line and page breaks and NBSP). -/
def isWs (c : Char) : Bool :=
  c = ' ' || c = '\t' || c = '\n' || c = '\r' ||
  c = Char.ofNat 11 || c = Char.ofNat 12 || c = Char.ofNat 160

/-- JS String.prototype.trim on the character list. -/
def jsTrimChars (l : List Char) : List Char :=
  ((l.dropWhile isWs).reverse.dropWhile isWs).reverse

/-- JS String.prototype.trim. -/
def jsTrim (s : String) : String :=
  ⟨jsTrimChars s.data⟩

/-- Collapses each run of consecutive spaces to a single space
(the character list has already had every whitespace character mapped
to a plain space, so this realizes the regex replace of
whitespace-runs by one space). -/
def squeeze : List Char → List Char
  | [] => []
  | [c] => [c]
  | a :: b :: rest =>
    if a = ' ' && b = ' ' then squeeze (b :: rest)
    else a :: squeeze (b :: rest)

/-- JS `line.replace(whitespace-run-regex, " ").trim()` from the source's
removeExtraSpaces. -/
def removeExtraSpaces (line : String) : String :=
  ⟨jsTrimChars (squeeze (line.data.map fun c => if isWs c then ' ' else c))⟩

/-- JS String.prototype.split with a single-character separator, on the
character list: "a:b:c" gives ["a","b","c"], "" gives [""]. -/
def splitChar (sep : Char) : List Char → List (List Char)
  | [] => [[]]
  | c :: rest =>
    let r := splitChar sep rest
    if c = sep then [] :: r
    else (c :: r.headD []) :: r.tail

/-- JS String.prototype.split with a single-character separator. -/
def jsSplit (sep : Char) (s : String) : List String :=
  (splitChar sep s.data).map (fun l => String.mk l)

/-- JS Array.prototype.includes on an array of strings. -/
def jsIncludes (l : List String) (x : String) : Bool :=
  l.any (fun y => y == x)

/-- ASCII lower-casing of one character (the keywords compared against
are plain ASCII). -/
def lowerChar (c : Char) : Char :=
  if 'A' ≤ c && c ≤ 'Z' then Char.ofNat (c.toNat + 32) else c

/-- JS String.prototype.toLowerCase restricted to ASCII letters. -/
def jsToLower (s : String) : String :=
  ⟨s.data.map lowerChar⟩

/-- Whether the pattern (first argument) is an initial segment of the
string (second argument); JS String.prototype.startsWith. -/
def startsWithChars : List Char → List Char → Bool
  | [], _ => true
  | _ :: _, [] => false
  | p :: ps, c :: cs => p = c && startsWithChars ps cs

/-- JS String.prototype.indexOf for a single character: first index,
or -1 when absent. -/
def jsIndexOf (s : String) (c : Char) : Int :=
  match s.data.findIdx? (fun d => d = c) with
  | some i => (i : Int)
  | none => -1

/-- Clamps a JS substring index into [0, n]. -/
def clampIdx (n : Nat) (i : Int) : Nat :=
  (i.toNat).min n

/-- JS String.prototype.substring: both indices clamped into range and
swapped when given in the wrong order. -/
def jsSubstring (s : String) (a b : Int) : String :=
  let x := clampIdx s.data.length a
  let y := clampIdx s.data.length b
  ⟨(s.data.take (max x y)).drop (min x y)⟩

/-- Replaces the first occurrence of the pattern, as JS
String.prototype.replace does with a plain-string pattern. -/
def replaceFirstChars (pat repl : List Char) : List Char → List Char
  | [] => if pat.isEmpty then repl else []
  | c :: rest =>
    if startsWithChars pat (c :: rest) then repl ++ (c :: rest).drop pat.length
    else c :: replaceFirstChars pat repl rest

/-- JS String.prototype.replace with a plain-string pattern (first
occurrence only). -/
def jsReplaceFirst (s pat repl : String) : String :=
  ⟨replaceFirstChars pat.data repl.data s.data⟩

end Masoria

deriving instance DecidableEq for Except

namespace Masoria

/-- A dialogue line (Dialogue type of the source). -/
structure Dialogue where
  character : String
  emotion : String
  text : String
deriving DecidableEq, Repr

/-- A branching choice (Choice type of the source). -/
structure Choice where
  label : String
  targetScene : String
deriving DecidableEq, Repr

/-- A scene node (Scene type of the source); optional fields are
JS-optional properties. -/
structure Scene where
  label : String
  nextScene : Option String := none
  previousScene : Option String := none
  isEndingScene : Bool
  dialogues : List Dialogue
  choices : Option (List Choice) := none
  condition : Option String := none
deriving DecidableEq, Repr

/-- A character with its emotion table (Character type of the source);
the JS object is an insertion-ordered association list. -/
structure Character where
  name : String
  emotions : List (String × String)
deriving DecidableEq, Repr

/-- The value returned by the parser (ParserResult type of the source). -/
structure ParserResult where
  scenes : List Scene
  characters : List Character
deriving DecidableEq, Repr

/-- How a run of the source aborts: a JS TypeError raised by
dereferencing undefined, or an explicitly thrown Error with its
message. -/
inductive Err where
  | typeError
  | thrown (msg : String)
deriving DecidableEq, Repr

/-- The Keyword enum of the source. -/
inductive Keyword where
  | scene
  | choice
  | endingScene
  | emotion
  | useEmotion
  | character
deriving DecidableEq, Repr

/-- The literal text of each Keyword enum member. -/
def Keyword.text : Keyword → String
  | .scene => "scene"
  | .choice => "choice"
  | .endingScene => "ending scene"
  | .emotion => "emotion"
  | .useEmotion => "use emotion"
  | .character => "character"

/-- Assignment to a string-keyed JS object property: an existing key
keeps its position and gets the new value, a new key is appended. -/
def setKey (m : List (String × String)) (k v : String) : List (String × String) :=
  if m.any (fun p => p.1 == k) then
    m.map (fun p => if p.1 == k then (k, v) else p)
  else m ++ [(k, v)]

/-- getLines of the source: split the script on newlines and drop the
lines whose trimmed content is empty. -/
def getLines (script : String) : List String :=
  (jsSplit '\n' script).filter (fun line => (jsTrim line).data.length > 0)

/-- isIndentationLevelCorrect of the source. The leading-whitespace run
matched by the source's anchored regex always exists, its length is
`spaces`, and the JS test `spaces % 2 === 0 && spaces / 4 === level`
over exact small integers holds precisely when `spaces % 2 = 0` and
`spaces = 4 * level` (division by 4 is exact in binary floating
point). -/
def isIndentationLevelCorrect (line : String) (level : Nat) : Bool :=
  let spaces := (line.data.takeWhile isWs).length
  spaces % 2 == 0 && spaces == 4 * level

/-- hasKeyword of the source: the lower-cased, trimmed line must start
with the keyword text, and then the indentation must match the level. -/
def hasKeyword (keyword : Keyword) (line : String) (level : Nat) : Bool :=
  if startsWithChars keyword.text.data (jsTrimChars (jsToLower line).data) then
    isIndentationLevelCorrect line level
  else false

/-- hasForbiddenInline of the source: the line is split on ":" and the
second segment is tested for nonblank content; when the line holds no
colon that segment is undefined and the `.trim()` call raises a
TypeError. -/
def hasForbiddenInline (line : String) : Except Err Bool :=
  match (jsSplit ':' line)[1]? with
  | none => .error .typeError
  | some text => .ok (!(jsTrimChars text.data).isEmpty)

/-- Result record of getParameter of the source (`string` plus the
optional `parameter` property). -/
structure ParamResult where
  string : String
  parameter : Option String := none
deriving DecidableEq, Repr

/-- getParameter of the source: without a "<" the string comes back
alone; otherwise the parameter is the substring between the first "<"
and the first ">" (JS substring semantics when ">" is absent or
earlier), and the first occurrence of the bracketed parameter is
removed from the string. -/
def getParameter (s : String) : ParamResult :=
  if s.data.contains '<' then
    let parameter := jsSubstring s (jsIndexOf s '<' + 1) (jsIndexOf s '>')
    { string := jsReplaceFirst s ("<" ++ parameter ++ ">") ""
      parameter := some parameter }
  else
    { string := s }

/-- makeScene of the source. Destructuring the space-split normalized
line reads the label token and the optional fourth (pointed-scene)
token; a missing label token makes the `.replace` call raise a
TypeError. The falsy test on the pointed token treats an empty string
like an absent one. -/
def makeScene (line : String) : Except Err Scene :=
  match hasForbiddenInline line with
  | .error e => .error e
  | .ok true => .error (.thrown "Inline instructions are forbidden in this context (scenes)!")
  | .ok false =>
  let toks := jsSplit ' ' (removeExtraSpaces line)
  match toks[1]? with
  | none => .error .typeError
  | some lc =>
    let labelCondition := jsReplaceFirst lc ":" ""
    let p := getParameter labelCondition
    .ok {
      label := p.string
      isEndingScene := false
      condition := p.parameter
      dialogues := []
      nextScene :=
        match toks[3]? with
        | some ps => if ps.data.isEmpty then none else some (jsReplaceFirst ps ":" "")
        | none => none }

/-- makeCharacter of the source; a missing name token makes the
`.replace` call raise a TypeError. -/
def makeCharacter (line : String) : Except Err Character :=
  match hasForbiddenInline line with
  | .error e => .error e
  | .ok true => .error (.thrown "Inline instructions are forbidden in this context (characters)!")
  | .ok false =>
  match (jsSplit ' ' (removeExtraSpaces line))[1]? with
  | none => .error .typeError
  | some name => .ok { name := jsReplaceFirst name ":" "", emotions := [] }

/-- addChoice of the source, returning the updated scene instead of
mutating it. A missing or empty (falsy) parameter is the thrown
target-scene failure; after that check, a line without a colon leaves
the label segment undefined and the `.trim()` call raises a
TypeError. -/
def addChoice (line : String) (currentScene : Option Scene) : Except Err Scene :=
  match currentScene with
  | none => .error (.thrown "Choice must be inside a scene!")
  | some scene =>
    let parts := jsSplit ':' line
    let instruction := parts.headD ""
    match (getParameter instruction).parameter with
    | none => .error (.thrown "Choice must have a target scene!")
    | some targetScene =>
      if targetScene.data.isEmpty then
        .error (.thrown "Choice must have a target scene!")
      else
        match parts[1]? with
        | none => .error .typeError
        | some label =>
          let choice : Choice := { label := jsTrim label, targetScene := targetScene }
          .ok { scene with
            choices :=
              match scene.choices with
              | some cs => some (cs ++ [choice])
              | none => some [choice] }

/-- addEmotion of the source, returning the updated character. A falsy
path segment (absent colon, or empty text between the first and second
colons) is the thrown missing-path failure; a missing emotion-name
token becomes the JS property key "undefined". -/
def addEmotion (line : String) (currentCharacter : Option Character) :
    Except Err Character :=
  match currentCharacter with
  | none => .error (.thrown "Emotion must be inside a character!")
  | some ch =>
    let parts := jsSplit ':' line
    let instruction := parts.headD ""
    let emotionName? := (jsSplit ' ' (removeExtraSpaces instruction))[1]?
    match parts[1]? with
    | none => .error (.thrown "An emotion declaration must have a path!")
    | some emotionPath =>
      if emotionPath.data.isEmpty then
        .error (.thrown "An emotion declaration must have a path!")
      else
        .ok { ch with
          emotions := setKey ch.emotions (emotionName?.getD "undefined") (jsTrim emotionPath) }

/-- The per-reference record built by organizeSceneRefs of the source. -/
structure Reference where
  parent : String
  choices : List String
deriving DecidableEq, Repr

/-- The reducer step of organizeSceneRefs: a scene owning a choices
array (even an empty one — an empty array is truthy) contributes one
reference record mapping its label to its choice targets. -/
def refStep (acc : List Reference) (scene : Scene) : List Reference :=
  match scene.choices with
  | some cs => acc ++ [{ parent := scene.label, choices := cs.map (fun c => c.targetScene) }]
  | none => acc

/-- organizeSceneRefs of the source: build the reference records, then
rewrite each scene's previousScene to the parent of the first
reference that targets its label, keeping the old value when none
does. -/
def organizeSceneRefs (scenes : List Scene) : List Scene :=
  let references := scenes.foldl refStep []
  scenes.map fun scene =>
    match references.find? (fun ref => jsIncludes ref.choices scene.label) with
    | some ref => { scene with previousScene := some ref.parent }
    | none => scene

/-- The mutable loop state of main of the source: the output arrays and
the two open slots. -/
structure LoopState where
  scenes : List Scene
  characters : List Character
  currentScene : Option Scene := none
  currentCharacter : Option Character := none
deriving DecidableEq, Repr

/-- Appends the open entity to its output array when one is open. -/
def pushOpt {α : Type} (xs : List α) (x? : Option α) : List α :=
  match x? with
  | some x => xs ++ [x]
  | none => xs

/-- One iteration of main's switch over a consumed line, in the
source's case order (character, emotion, scene, choice; first match
wins; no match leaves the state unchanged). On a scene start with a
scene already open, the open scene's nextScene is filled with the new
label only when unset (the JS nullish-coalescing assignment), the new
scene's previousScene becomes the open scene's label, and the open
scene is pushed. -/
def processLine (st : LoopState) (line : String) : Except Err LoopState :=
  if hasKeyword .character line 0 then
    (makeCharacter line).map fun c =>
      { st with
        characters := pushOpt st.characters st.currentCharacter
        currentCharacter := some c }
  else if hasKeyword .emotion line 1 then
    (addEmotion line st.currentCharacter).map fun c =>
      { st with currentCharacter := some c }
  else if hasKeyword .scene line 0 then
    (makeScene line).map fun newScene =>
      match st.currentScene with
      | some cur =>
        { st with
          scenes := st.scenes ++ [{ cur with nextScene := some (cur.nextScene.getD newScene.label) }]
          currentScene := some { newScene with previousScene := some cur.label } }
      | none => { st with currentScene := some newScene }
  else if hasKeyword .choice line 1 then
    (addChoice line st.currentScene).map fun s =>
      { st with currentScene := some s }
  else
    .ok st

/-- The while loop of main: lines are consumed first to last and any
abort ends the whole run. -/
def runLines : LoopState → List String → Except Err LoopState
  | st, [] => .ok st
  | st, l :: rest =>
    match processLine st l with
    | .ok st2 => runLines st2 rest
    | .error e => .error e

/-- main of the source: run the loop over the non-empty lines, flush
the still-open scene and character, and reconcile scene references. -/
def main (script : String) : Except Err ParserResult :=
  match runLines { scenes := [], characters := [] } (getLines script) with
  | .error e => .error e
  | .ok st =>
    .ok {
      scenes := organizeSceneRefs (pushOpt st.scenes st.currentScene)
      characters := pushOpt st.characters st.currentCharacter }

/-- Whether some scene owns a choice whose target is the given label;
the property the reference reconciler's lookup realizes, stated
directly on scenes. -/
def ownsChoiceTargeting (s : Scene) (lbl : String) : Bool :=
  match s.choices with
  | some cs => cs.any (fun c => c.targetScene == lbl)
  | none => false

/-- The reference record a single scene contributes (none when it owns
no choices array). -/
def refOf (s : Scene) : Option Reference :=
  s.choices.map (fun cs => { parent := s.label, choices := cs.map (fun c => c.targetScene) })

end Masoria

open Masoria

/-- The script of the reconciliation example: scenes A, B, C in that
declaration order, A owning a choice that targets C. -/
def c1Script : String := "scene A:\n    choice<C>: go\nscene B:\nscene C:"

/-- Scene A as the accumulator pass leaves it for c1Script. -/
def c1SceneA : Scene :=
  { label := "A", nextScene := some "B", isEndingScene := false, dialogues := []
    choices := some [{ label := "go", targetScene := "C" }] }

/-- Scene B as the accumulator pass leaves it for c1Script. -/
def c1SceneB : Scene :=
  { label := "B", nextScene := some "C", previousScene := some "A"
    isEndingScene := false, dialogues := [] }

/-- Scene C as the accumulator pass leaves it for c1Script: its
chaining-derived previousScene is "B". -/
def c1SceneC : Scene :=
  { label := "C", previousScene := some "B", isEndingScene := false, dialogues := [] }

/-- First input scene of the C10 witness, owning a choice that targets
the second. -/
def c10SceneX : Scene :=
  { label := "X", nextScene := some "Y", previousScene := some "p"
    isEndingScene := true
    dialogues := [{ character := "Bob", emotion := "happy", text := "hi" }]
    choices := some [{ label := "take it", targetScene := "Y" }]
    condition := some "hasKey" }

/-- Second input scene of the C10 witness; its previousScene gets
rewritten by the reconciler while every other field stays. -/
def c10SceneY : Scene :=
  { label := "Y", previousScene := some "X", isEndingScene := false, dialogues := [] }

/-- Scene A of the C2 witness as the accumulator holds it right before
the scene-start line "scene B:" arrives: its explicit nextScene is
"Z". -/
def c2SceneA : Scene :=
  { label := "A", nextScene := some "Z", isEndingScene := false, dialogues := [] }

/-- Scene B of the C2 witness as it is opened: back-linked to A. -/
def c2SceneB : Scene :=
  { label := "B", previousScene := some "A", isEndingScene := false, dialogues := [] }

/-- The scene open in the C5 witness states. -/
def c5Scene : Scene := { label := "S", isEndingScene := false, dialogues := [] }

/-- The loop state of the C5 witness: one open scene, nothing emitted. -/
def c5State : LoopState := { scenes := [], characters := [], currentScene := some c5Scene }

/-- The empty loop state of the C6 witness. -/
def c6State : LoopState := { scenes := [], characters := [] }

/-- The loop state of the C6 witness with an open character. -/
def c6CharState : LoopState :=
  { scenes := [], characters := [], currentCharacter := some { name := "Bob", emotions := [] } }

/-- Splitting the whole line at the FIRST colon only, as the claim's
words describe: everything after the first colon (none when the line
has no colon). Stated from the specification's words, for comparison
with the source's two-segment destructuring of a full split. -/
def textAfterFirstColon (s : String) : Option String :=
  match s.data.findIdx? (fun c => c = ':') with
  | some i => some ⟨s.data.drop (i + 1)⟩
  | none => none

/-- The open scene of the C7 counterexample and witness. -/
def c7Scene : Scene := { label := "A", isEndingScene := false, dialogues := [] }

/-- The open character of the C8 counterexample and witness. -/
def c8Character : Character := { name := "Bob", emotions := [] }

/-- Number of entities held by an open slot: one or zero. -/
def optCount {α : Type} : Option α → Nat
  | some _ => 1
  | none => 0

/-- The script of the C9 witness: one character block and two scenes. -/
def c9Script : String := "character Bob:\n    emotion happy: a.png\nscene A:\nscene B:"

/-- The parse result of the C9 witness script. -/
def c9Result : ParserResult :=
  (Masoria.main c9Script).toOption.getD { scenes := [], characters := [] }

example : jsSplit ':' "a:b:c" = ["a", "b", "c"] := by decide
example : jsSplit ':' "scene intro" = ["scene intro"] := by decide
example : removeExtraSpaces "  scene   A  -> Z: " = "scene A -> Z:" := by decide
example : jsReplaceFirst "B::" ":" "" = "B:" := by decide
example : jsToLower "SCene X" = "scene x" := by decide
example : jsSubstring "intro<hasKey>" 6 12 = "hasKey" := by decide
example : jsIndexOf "intro<hasKey>" '<' = 5 := by decide

example : Masoria.main "scene A:\nscene B:\nscene C:" = .ok { scenes := [{ label := "A", nextScene := some "B", isEndingScene := false, dialogues := [] }, { label := "B", nextScene := some "C", previousScene := some "A", isEndingScene := false, dialogues := [] }, { label := "C", previousScene := some "B", isEndingScene := false, dialogues := [] }], characters := [] } := by decide
example : (Masoria.main "character  Bob:\n    emotion happy: a.png\n    emotion sad: b.png").map (fun r => r.characters) = .ok [{ name := "Bob", emotions := [("happy", "a.png"), ("sad", "b.png")] }] := by decide

/-- A pattern is accepted by startsWithChars exactly when it is the
initial segment of the string of its own length. -/
theorem startsWithChars_take (p l : List Char) :
    startsWithChars p l = true ↔ l.take p.length = p := by
  induction p generalizing l with
  | nil => simp [startsWithChars]
  | cons a as ih =>
    cases l with
    | nil => simp [startsWithChars]
    | cons c cs =>
      rw [List.length_cons, List.take_succ_cons]
      simp only [startsWithChars, Bool.and_eq_true, decide_eq_true_eq, List.cons.injEq, ih]
      exact ⟨fun ⟨h1, h2⟩ => ⟨h1.symm, h2⟩, fun ⟨h1, h2⟩ => ⟨h1.symm, h2⟩⟩

/-- Two patterns that disagree on a common initial segment cannot both
start the same string. -/
theorem startsWith_clash (p q l : List Char) (n : Nat)
    (hnp : n ≤ p.length) (hnq : n ≤ q.length) (hn : p.take n ≠ q.take n)
    (hp : startsWithChars p l = true) (hq : startsWithChars q l = true) : False := by
  apply hn
  have hp' := (startsWithChars_take p l).mp hp
  have hq' := (startsWithChars_take q l).mp hq
  calc p.take n = (l.take p.length).take n := by rw [hp']
    _ = l.take n := by rw [List.take_take, Nat.min_eq_left hnp]
    _ = (l.take q.length).take n := by rw [List.take_take, Nat.min_eq_left hnq]
    _ = q.take n := by rw [hq']

/-- A line recognized for a keyword at a level starts (lower-cased and
trimmed) with the keyword text. -/
theorem starts_of_hasKeyword {k : Keyword} {line : String} {lv : Nat}
    (h : hasKeyword k line lv = true) :
    startsWithChars k.text.data (jsTrimChars (jsToLower line).data) = true := by
  by_cases hs : startsWithChars k.text.data (jsTrimChars (jsToLower line).data) = true
  · exact hs
  · rw [hasKeyword, if_neg hs] at h
    exact absurd h (by simp)

/-- A line recognized for a keyword at a level has exactly 4 * level
leading whitespace characters. -/
theorem ws_of_hasKeyword {k : Keyword} {line : String} {lv : Nat}
    (h : hasKeyword k line lv = true) :
    (line.data.takeWhile isWs).length = 4 * lv := by
  by_cases hs : startsWithChars k.text.data (jsTrimChars (jsToLower line).data) = true
  · rw [hasKeyword, if_pos hs, isIndentationLevelCorrect] at h
    simp only [Bool.and_eq_true, beq_iff_eq] at h
    exact h.2
  · rw [hasKeyword, if_neg hs] at h
    exact absurd h (by simp)

/-- The keyword test is the conjunction of the prefix test and the
leading-whitespace count being exactly 4 * level (the source's extra
evenness test is implied, 4 * level being even). -/
theorem hasKeyword_iff (k : Keyword) (line : String) (lv : Nat) :
    hasKeyword k line lv = true ↔
      (startsWithChars k.text.data (jsTrimChars (jsToLower line).data) = true ∧
       (line.data.takeWhile isWs).length = 4 * lv) := by
  constructor
  · exact fun h => ⟨starts_of_hasKeyword h, ws_of_hasKeyword h⟩
  · rintro ⟨hs, hw⟩
    rw [hasKeyword, if_pos hs, isIndentationLevelCorrect]
    simp only [Bool.and_eq_true, beq_iff_eq]
    exact ⟨by omega, hw⟩

/-- A keyword recognized at one level rules out recognition at a level
with a different indentation width. -/
theorem hasKeyword_level_ne {k : Keyword} {line : String} {lv : Nat}
    (k' : Keyword) (lv' : Nat) (h : hasKeyword k line lv = true) (hne : 4 * lv ≠ 4 * lv') :
    hasKeyword k' line lv' = false := by
  by_contra hc
  rw [Bool.not_eq_false] at hc
  exact hne (by rw [← ws_of_hasKeyword h, ← ws_of_hasKeyword hc])

/-- Keywords whose texts disagree on a common initial segment cannot
both be recognized on one line. -/
theorem hasKeyword_text_clash {k : Keyword} {line : String} {lv : Nat}
    (k' : Keyword) (lv' : Nat) (n : Nat)
    (hnp : n ≤ k.text.data.length) (hnq : n ≤ k'.text.data.length)
    (hn : k.text.data.take n ≠ k'.text.data.take n)
    (h : hasKeyword k line lv = true) : hasKeyword k' line lv' = false := by
  by_contra hc
  rw [Bool.not_eq_false] at hc
  exact startsWith_clash _ _ _ n hnp hnq hn (starts_of_hasKeyword h) (starts_of_hasKeyword hc)

/-- A scene-start line is not a character-start line. -/
theorem scene_not_character {line : String} (h : hasKeyword .scene line 0 = true) :
    hasKeyword .character line 0 = false :=
  hasKeyword_text_clash .character 0 1 (by decide) (by decide) (by decide) h

/-- A scene-start line (level 0) is not an emotion line (level 1). -/
theorem scene_not_emotion {line : String} (h : hasKeyword .scene line 0 = true) :
    hasKeyword .emotion line 1 = false :=
  hasKeyword_level_ne .emotion 1 h (by decide)

/-- A character-start line is not a scene-start line. -/
theorem character_not_scene {line : String} (h : hasKeyword .character line 0 = true) :
    hasKeyword .scene line 0 = false :=
  hasKeyword_text_clash .scene 0 1 (by decide) (by decide) (by decide) h

/-- An emotion line (level 1) is not a character-start line (level 0). -/
theorem emotion_not_character {line : String} (h : hasKeyword .emotion line 1 = true) :
    hasKeyword .character line 0 = false :=
  hasKeyword_level_ne .character 0 h (by decide)

/-- An emotion line (level 1) is not a scene-start line (level 0). -/
theorem emotion_not_scene {line : String} (h : hasKeyword .emotion line 1 = true) :
    hasKeyword .scene line 0 = false :=
  hasKeyword_level_ne .scene 0 h (by decide)

/-- A choice line (level 1) is not a character-start line (level 0). -/
theorem choice_not_character {line : String} (h : hasKeyword .choice line 1 = true) :
    hasKeyword .character line 0 = false :=
  hasKeyword_level_ne .character 0 h (by decide)

/-- A choice line (level 1) is not a scene-start line (level 0). -/
theorem choice_not_scene {line : String} (h : hasKeyword .choice line 1 = true) :
    hasKeyword .scene line 0 = false :=
  hasKeyword_level_ne .scene 0 h (by decide)

/-- A choice line is not an emotion line (the keyword texts differ in
their first character). -/
theorem choice_not_emotion {line : String} (h : hasKeyword .choice line 1 = true) :
    hasKeyword .emotion line 1 = false :=
  hasKeyword_text_clash .emotion 1 1 (by decide) (by decide) (by decide) h

/-- On a recognized character-start line the loop pushes any open
character and opens the new one. -/
theorem processLine_character {st : LoopState} {line : String}
    (h : hasKeyword .character line 0 = true) :
    processLine st line = (makeCharacter line).map fun c =>
      { st with
        characters := pushOpt st.characters st.currentCharacter
        currentCharacter := some c } := by
  rw [processLine, if_pos h]

/-- On a recognized emotion line the loop delegates to addEmotion. -/
theorem processLine_emotion {st : LoopState} {line : String}
    (h : hasKeyword .emotion line 1 = true) :
    processLine st line = (addEmotion line st.currentCharacter).map fun c =>
      { st with currentCharacter := some c } := by
  rw [processLine, if_neg (by rw [emotion_not_character h]; exact fun hc => Bool.false_ne_true hc),
    if_pos h]

/-- On a recognized scene-start line the loop builds the new scene and,
when a scene is open, fills its unset nextScene with the new label,
back-links the new scene and pushes the open one. -/
theorem processLine_scene {st : LoopState} {line : String}
    (h : hasKeyword .scene line 0 = true) :
    processLine st line = (makeScene line).map fun newScene =>
      match st.currentScene with
      | some cur =>
        { st with
          scenes := st.scenes ++ [{ cur with nextScene := some (cur.nextScene.getD newScene.label) }]
          currentScene := some { newScene with previousScene := some cur.label } }
      | none => { st with currentScene := some newScene } := by
  rw [processLine, if_neg (by rw [scene_not_character h]; exact fun hc => Bool.false_ne_true hc),
    if_neg (by rw [scene_not_emotion h]; exact fun hc => Bool.false_ne_true hc), if_pos h]

/-- On a recognized choice line the loop delegates to addChoice. -/
theorem processLine_choice {st : LoopState} {line : String}
    (h : hasKeyword .choice line 1 = true) :
    processLine st line = (addChoice line st.currentScene).map fun s =>
      { st with currentScene := some s } := by
  rw [processLine, if_neg (by rw [choice_not_character h]; exact fun hc => Bool.false_ne_true hc),
    if_neg (by rw [choice_not_emotion h]; exact fun hc => Bool.false_ne_true hc),
    if_neg (by rw [choice_not_scene h]; exact fun hc => Bool.false_ne_true hc), if_pos h]

/-- A line recognized by none of the four keyword/level pairs leaves
the loop state untouched. -/
theorem processLine_skip {st : LoopState} {line : String}
    (h1 : hasKeyword .character line 0 = false) (h2 : hasKeyword .emotion line 1 = false)
    (h3 : hasKeyword .scene line 0 = false) (h4 : hasKeyword .choice line 1 = false) :
    processLine st line = .ok st := by
  rw [processLine, if_neg (by rw [h1]; exact fun hc => Bool.false_ne_true hc),
    if_neg (by rw [h2]; exact fun hc => Bool.false_ne_true hc),
    if_neg (by rw [h3]; exact fun hc => Bool.false_ne_true hc),
    if_neg (by rw [h4]; exact fun hc => Bool.false_ne_true hc)]

/-- The reducer of organizeSceneRefs collects exactly the reference
records of the scenes owning a choices array, in declaration order. -/
theorem foldl_refStep (ss : List Scene) (acc : List Reference) :
    ss.foldl refStep acc = acc ++ ss.filterMap refOf := by
  induction ss generalizing acc with
  | nil => simp
  | cons s rest ih =>
    cases hc : s.choices with
    | none =>
      rw [List.foldl_cons, List.filterMap_cons]
      have h1 : refOf s = none := by rw [refOf, hc]; rfl
      have h2 : refStep acc s = acc := by rw [refStep, hc]
      rw [h1, h2, ih]
    | some cs =>
      rw [List.foldl_cons, List.filterMap_cons]
      have h1 : refOf s = some { parent := s.label, choices := cs.map (fun c => c.targetScene) } := by
        rw [refOf, hc]; rfl
      have h2 : refStep acc s = acc ++ [{ parent := s.label, choices := cs.map (fun c => c.targetScene) }] := by
        rw [refStep, hc]
      rw [h1, h2, ih, List.append_assoc]
      rfl

/-- Membership of a label among a choice list's targets, as tested by
the reconciler's array lookup, is ownership of a choice targeting it. -/
theorem jsIncludes_targets (cs : List Choice) (lbl : String) :
    jsIncludes (cs.map (fun c => c.targetScene)) lbl = cs.any (fun c => c.targetScene == lbl) := by
  induction cs with
  | nil => rfl
  | cons c rest ih =>
    rw [List.map_cons, List.any_cons, ← ih]
    rfl

/-- Searching the collected reference records for the first one whose
targets include a label finds exactly the first scene owning a choice
that targets the label, and yields that scene's own label as parent. -/
theorem find?_refs (ss : List Scene) (lbl : String) :
    ((ss.filterMap refOf).find? (fun r => jsIncludes r.choices lbl)).map Reference.parent
      = (ss.find? (fun s => ownsChoiceTargeting s lbl)).map Scene.label := by
  induction ss with
  | nil => rfl
  | cons s rest ih =>
    cases hc : s.choices with
    | none =>
      have h1 : refOf s = none := by rw [refOf, hc]; rfl
      have h2 : ownsChoiceTargeting s lbl = false := by rw [ownsChoiceTargeting, hc]
      rw [List.filterMap_cons, h1, List.find?_cons_of_neg _ (by rw [h2]; exact fun hx => Bool.false_ne_true hx), ih]
    | some cs =>
      have h1 : refOf s = some { parent := s.label, choices := cs.map (fun c => c.targetScene) } := by
        rw [refOf, hc]; rfl
      have h2 : ownsChoiceTargeting s lbl = cs.any (fun c => c.targetScene == lbl) := by
        rw [ownsChoiceTargeting, hc]
      rw [List.filterMap_cons, h1]
      by_cases ho : cs.any (fun c => c.targetScene == lbl) = true
      · rw [List.find?_cons_of_pos _ (by rw [jsIncludes_targets, ho]),
          List.find?_cons_of_pos _ (by rw [h2, ho])]
        rfl
      · rw [List.find?_cons_of_neg _ (by rw [jsIncludes_targets]; exact fun hx => ho hx),
          List.find?_cons_of_neg _ (by rw [h2]; exact fun hx => ho hx), ih]

/-- Element-wise description of the reconciler's output in terms of the
collected references. -/
theorem organizeSceneRefs_getElem (ss : List Scene) (i : Nat) (h : i < ss.length) :
    (organizeSceneRefs ss)[i]? = some (
      match (ss.filterMap refOf).find? (fun ref => jsIncludes ref.choices ss[i].label) with
      | some ref => { ss[i] with previousScene := some ref.parent }
      | none => ss[i]) := by
  rw [organizeSceneRefs]
  rw [foldl_refStep ss [], List.nil_append, List.getElem?_map, List.getElem?_eq_getElem h]
  rfl

/-- The reconciler keeps the number of scenes. -/
theorem organizeSceneRefs_length (ss : List Scene) :
    (organizeSceneRefs ss).length = ss.length := by
  rw [organizeSceneRefs]
  exact List.length_map ss _

/-- C1: after the post-pass, a scene whose label is the targetScene of at
least one choice owned by some scene has previousScene equal to the label
of the first such choice-owning scene in declaration order, while a scene
targeted by no choice keeps the previousScene it had after the
accumulator pass. -/
theorem c1_reconciler_choice_precedence (ss : List Scene) (i : Nat) (h : i < ss.length) :
    ((organizeSceneRefs ss)[i]?).map Scene.previousScene =
      some (match ss.find? (fun p => ownsChoiceTargeting p ss[i].label) with
            | some p => some p.label
            | none => ss[i].previousScene) := by
  rw [organizeSceneRefs_getElem ss i h]
  have hf := find?_refs ss ss[i].label
  cases hr : (ss.filterMap refOf).find? (fun r => jsIncludes r.choices ss[i].label) with
  | some r =>
    rw [hr] at hf
    cases hs : ss.find? (fun p => ownsChoiceTargeting p ss[i].label) with
    | some p =>
      rw [hs] at hf
      simp only [Option.map_some', Option.some.injEq] at hf
      simp [hf]
    | none =>
      rw [hs] at hf
      simp at hf
  | none =>
    rw [hr] at hf
    cases hs : ss.find? (fun p => ownsChoiceTargeting p ss[i].label) with
    | some p =>
      rw [hs] at hf
      simp at hf
    | none => rfl

/-- Witness for C1: on the A/B/C example the reconciled C carries
previousScene "A" (choice-derived), overriding the chaining-derived "B",
and the whole parse of the script produces exactly the reconciliation of
that accumulator output. -/
theorem c1_reconciler_choice_precedence_witness :
    ((organizeSceneRefs [c1SceneA, c1SceneB, c1SceneC])[2]?).map Scene.previousScene
        = some (some "A") ∧
    Masoria.main c1Script =
      .ok { scenes := organizeSceneRefs [c1SceneA, c1SceneB, c1SceneC], characters := [] } :=
  ⟨(c1_reconciler_choice_precedence [c1SceneA, c1SceneB, c1SceneC] 2 (by decide)).trans
    (by decide), by decide⟩

/-- C10: the reconciler returns a scene sequence of the same length in
the same order and changes at most previousScene: the i-th output scene
agrees with the i-th input scene on label, condition, nextScene,
isEndingScene, dialogues and choices. -/
theorem c10_reconciler_frame (ss : List Scene) (i : Nat) (h : i < ss.length) :
    (organizeSceneRefs ss).length = ss.length ∧
    ∃ s', (organizeSceneRefs ss)[i]? = some s' ∧
      s'.label = ss[i].label ∧ s'.condition = ss[i].condition ∧
      s'.nextScene = ss[i].nextScene ∧ s'.isEndingScene = ss[i].isEndingScene ∧
      s'.dialogues = ss[i].dialogues ∧ s'.choices = ss[i].choices := by
  refine ⟨organizeSceneRefs_length ss, ?_⟩
  rw [organizeSceneRefs_getElem ss i h]
  cases (ss.filterMap refOf).find? (fun ref => jsIncludes ref.choices ss[i].label) with
  | some r => exact ⟨_, rfl, rfl, rfl, rfl, rfl, rfl, rfl⟩
  | none => exact ⟨_, rfl, rfl, rfl, rfl, rfl, rfl, rfl⟩

/-- Witness for C10 at a two-scene input whose second scene is rewritten
by the reconciler. -/
theorem c10_reconciler_frame_witness :
    (organizeSceneRefs [c10SceneX, c10SceneY]).length = 2 ∧
    ∃ s', (organizeSceneRefs [c10SceneX, c10SceneY])[1]? = some s' ∧
      s'.label = c10SceneY.label ∧ s'.condition = c10SceneY.condition ∧
      s'.nextScene = c10SceneY.nextScene ∧ s'.isEndingScene = c10SceneY.isEndingScene ∧
      s'.dialogues = c10SceneY.dialogues ∧ s'.choices = c10SceneY.choices := by
  have h := c10_reconciler_frame [c10SceneX, c10SceneY] 1 (by decide)
  simpa using h

/-- C2 counterexample: with the claim's literal declaration lines
"scene A -> Z" and "scene B" (which carry no colon) the parse aborts
with a TypeError, so no result with A.nextScene = "Z" is emitted. -/
theorem c2_explicit_next_cex :
    Masoria.main "scene A -> Z\nscene B" = .error .typeError := by decide

/-- C2 (amended): whenever a scene-start line is processed while another
scene is open, the open scene's nextScene is set to the new scene's
label only if it was not already set, the new scene's previousScene is
set to the open scene's label, and the open scene is finalized. -/
theorem c2_explicit_next (st : LoopState) (cur ns : Scene) (line : String)
    (hk : hasKeyword .scene line 0 = true)
    (hcur : st.currentScene = some cur)
    (hmk : makeScene line = .ok ns) :
    processLine st line = .ok { st with
      scenes := st.scenes ++ [{ cur with nextScene := some (cur.nextScene.getD ns.label) }]
      currentScene := some { ns with previousScene := some cur.label } } := by
  rw [processLine_scene hk, hmk, hcur]
  rfl

/-- Witness for C2: processing "scene B:" with A (explicit next "Z")
open pushes A unchanged, and the full parse of "scene A -> Z:" followed
by "scene B:" keeps A.nextScene = "Z", not "B". -/
theorem c2_explicit_next_witness :
    processLine { scenes := [], characters := [], currentScene := some c2SceneA } "scene B:"
        = .ok { scenes := [c2SceneA], characters := [], currentScene := some c2SceneB } ∧
    Masoria.main "scene A -> Z:\nscene B:" = .ok { scenes := [c2SceneA, c2SceneB], characters := [] } :=
  ⟨(c2_explicit_next { scenes := [], characters := [], currentScene := some c2SceneA }
      c2SceneA { label := "B", isEndingScene := false, dialogues := [] } "scene B:"
      (by decide) rfl (by decide)).trans (by decide),
   by decide⟩

/-- C3: evaluating the source at the claim's inputs: the colon-free lines
"scene intro" and "scene intro<hasKey>" make makeScene (and therefore the
whole parse) raise a TypeError instead of yielding a scene, while the
colon-terminated forms and the parameter splitter itself behave as the
claim describes. -/
theorem c3_parameter_extraction_eval :
    Masoria.makeScene "scene intro" = .error .typeError ∧
    Masoria.makeScene "scene intro<hasKey>" = .error .typeError ∧
    Masoria.main "scene intro" = .error .typeError ∧
    Masoria.makeScene "scene intro:" =
      .ok { label := "intro", isEndingScene := false, dialogues := [] } ∧
    Masoria.makeScene "scene intro<hasKey>:" =
      .ok { label := "intro", isEndingScene := false, dialogues := [], condition := some "hasKey" } ∧
    getParameter "intro<hasKey>" = { string := "intro", parameter := some "hasKey" } ∧
    getParameter "intro" = { string := "intro" } := by
  decide

/-- Splitting on a character that does not occur leaves the whole list
as the single segment. -/
theorem splitChar_no_sep (sep : Char) (l : List Char) (h : sep ∉ l) :
    splitChar sep l = [l] := by
  induction l with
  | nil => rfl
  | cons c rest ih =>
    have h1 : ¬(c = sep) := fun he => h (by rw [he]; exact List.mem_cons_self _ _)
    have h2 : sep ∉ rest := fun hm => h (List.mem_cons_of_mem _ hm)
    rw [splitChar, ih h2]
    simp [h1]

/-- A line without a colon survives the split whole. -/
theorem jsSplit_no_colon (line : String) (h : ':' ∉ line.data) :
    jsSplit ':' line = [line] := by
  rw [jsSplit, splitChar_no_sep ':' line.data h]
  rfl

/-- On a colon-free line the forbidden-inline check raises the
TypeError. -/
theorem hasForbiddenInline_no_colon (line : String) (h : ':' ∉ line.data) :
    hasForbiddenInline line = .error .typeError := by
  rw [hasForbiddenInline, jsSplit_no_colon line h]
  rfl

/-- On a colon-free line makeScene raises the TypeError. -/
theorem makeScene_no_colon (line : String) (h : ':' ∉ line.data) :
    makeScene line = .error .typeError := by
  rw [makeScene, hasForbiddenInline_no_colon line h]

/-- On a colon-free line makeCharacter raises the TypeError. -/
theorem makeCharacter_no_colon (line : String) (h : ':' ∉ line.data) :
    makeCharacter line = .error .typeError := by
  rw [makeCharacter, hasForbiddenInline_no_colon line h]

/-- A colon-free line recognized as a scene start or a character start
makes the loop step abort with the TypeError, whatever the state. -/
theorem processLine_no_colon (st : LoopState) (line : String)
    (h : ':' ∉ line.data)
    (hk : hasKeyword .scene line 0 = true ∨ hasKeyword .character line 0 = true) :
    processLine st line = .error .typeError := by
  cases hchar : hasKeyword .character line 0 with
  | true =>
    rw [processLine_character hchar, makeCharacter_no_colon line h]
    rfl
  | false =>
    have hsc : hasKeyword .scene line 0 = true := by
      cases hk with
      | inl h1 => exact h1
      | inr h2 => rw [h2] at hchar; exact absurd hchar (by simp)
    rw [processLine_scene hsc, makeScene_no_colon line h]
    rfl

/-- If any line of the sequence is a colon-free declaration line, the
whole loop aborts. -/
theorem runLines_abort (ls : List String) : ∀ st : LoopState,
    (∃ l ∈ ls, ':' ∉ l.data ∧
       (hasKeyword .scene l 0 = true ∨ hasKeyword .character l 0 = true)) →
    ∃ e, runLines st ls = .error e := by
  induction ls with
  | nil =>
    intro st hbad
    simp at hbad
  | cons l rest ih =>
    intro st hbad
    cases hp : processLine st l with
    | error e => exact ⟨e, by rw [runLines, hp]⟩
    | ok st2 =>
      obtain ⟨x, hx, hc, hk⟩ := hbad
      rcases List.mem_cons.mp hx with rfl | hxr
      · rw [processLine_no_colon st x hc hk] at hp
        exact absurd hp (by simp)
      · obtain ⟨e, he⟩ := ih st2 ⟨x, hxr, hc, hk⟩
        refine ⟨e, ?_⟩
        rw [runLines, hp]
        exact he

/-- C4: a line recognized as a scene start or character start that holds
no colon anywhere makes the loop step abort with the TypeError raised
inside the forbidden-inline check, so a script containing such a line
never produces a result (no Scene, no Character, no partial output). -/
theorem c4_colonless_declaration_abort :
    (∀ (st : LoopState) (line : String), ':' ∉ line.data →
       (hasKeyword .scene line 0 = true ∨ hasKeyword .character line 0 = true) →
       processLine st line = .error .typeError) ∧
    (∀ script : String,
       (∃ l ∈ getLines script, ':' ∉ l.data ∧
          (hasKeyword .scene l 0 = true ∨ hasKeyword .character l 0 = true)) →
       ∃ e, Masoria.main script = .error e) := by
  constructor
  · exact fun st line h hk => processLine_no_colon st line h hk
  · intro script hbad
    obtain ⟨e, he⟩ := runLines_abort (getLines script) { scenes := [], characters := [] } hbad
    exact ⟨e, by rw [main, he]⟩

/-- Witness for C4: the colon-free lines "scene intro" and
"character Bob" abort the loop step, and a script consisting of the
former aborts the whole parse. -/
theorem c4_colonless_declaration_abort_witness :
    processLine { scenes := [], characters := [] } "scene intro" = .error .typeError ∧
    processLine { scenes := [], characters := [] } "character Bob" = .error .typeError ∧
    ∃ e, Masoria.main "scene intro" = .error e :=
  ⟨c4_colonless_declaration_abort.1 { scenes := [], characters := [] } "scene intro"
      (by decide) (Or.inl (by decide)),
   c4_colonless_declaration_abort.1 { scenes := [], characters := [] } "character Bob"
      (by decide) (Or.inr (by decide)),
   c4_colonless_declaration_abort.2 "scene intro"
      ⟨"scene intro", by decide, by decide, Or.inl (by decide)⟩⟩

/-- C5 counterexample: a choice line indented with four tabs has zero
leading space characters yet qualifies at level 1, because the
indentation check counts every leading whitespace character — tabs are
not rejected. -/
theorem c5_indentation_cex :
    hasKeyword .choice "\t\t\t\tchoice<go>: Hi" 1 = true ∧
    (("\t\t\t\tchoice<go>: Hi").data.takeWhile (fun c => c = ' ')).length = 0 := by
  decide

/-- C5 (amended): a line qualifies for a keyword at a level exactly when
it starts (lower-cased, trimmed) with the keyword text and its count of
leading whitespace characters — spaces and tabs alike — is exactly
4 * level; a choice-prefixed line whose leading-whitespace count is not
4 is silently ignored by the loop (no choice, no error); a recognized
choice line is delegated to the choice builder against the open
scene. -/
theorem c5_indentation_qualification :
    (∀ (k : Keyword) (line : String) (level : Nat),
       hasKeyword k line level = true ↔
         (startsWithChars k.text.data (jsTrimChars (jsToLower line).data) = true ∧
          (line.data.takeWhile isWs).length = 4 * level)) ∧
    (∀ (st : LoopState) (line : String),
       startsWithChars "choice".data (jsTrimChars (jsToLower line).data) = true →
       (line.data.takeWhile isWs).length ≠ 4 →
       processLine st line = .ok st) ∧
    (∀ (st : LoopState) (line : String) (sc : Scene),
       st.currentScene = some sc →
       hasKeyword .choice line 1 = true →
       processLine st line = (addChoice line (some sc)).map fun s =>
         { st with currentScene := some s }) := by
  refine ⟨hasKeyword_iff, ?_, ?_⟩
  · intro st line hstarts hws
    have h4 : hasKeyword .choice line 1 = false := by
      by_contra hcc
      rw [Bool.not_eq_false] at hcc
      have := ws_of_hasKeyword hcc
      omega
    have h1 : hasKeyword .character line 0 = false := by
      by_contra hcc
      rw [Bool.not_eq_false] at hcc
      exact startsWith_clash "character".data "choice".data _ 3 (by decide) (by decide)
        (by decide) (starts_of_hasKeyword hcc) hstarts
    have h2 : hasKeyword .emotion line 1 = false := by
      by_contra hcc
      rw [Bool.not_eq_false] at hcc
      exact startsWith_clash "emotion".data "choice".data _ 1 (by decide) (by decide)
        (by decide) (starts_of_hasKeyword hcc) hstarts
    have h3 : hasKeyword .scene line 0 = false := by
      by_contra hcc
      rw [Bool.not_eq_false] at hcc
      exact startsWith_clash "scene".data "choice".data _ 1 (by decide) (by decide)
        (by decide) (starts_of_hasKeyword hcc) hstarts
    exact processLine_skip h1 h2 h3 h4
  · intro st line sc hcur hk
    rw [processLine_choice hk, hcur]

/-- Witness for C5: choice lines with 2 leading spaces or 2 leading tabs
are ignored, and one with exactly 4 leading spaces inside an open scene
produces the choice. -/
theorem c5_indentation_qualification_witness :
    processLine c5State "  choice<go>: Hi" = .ok c5State ∧
    processLine c5State "\t\tchoice<go>: Hi" = .ok c5State ∧
    processLine c5State "    choice<go>: Hi" =
      .ok { c5State with
            currentScene := some { c5Scene with
                                   choices := some [{ label := "Hi", targetScene := "go" }] } } :=
  ⟨c5_indentation_qualification.2.1 c5State "  choice<go>: Hi" (by decide) (by decide),
   c5_indentation_qualification.2.1 c5State "\t\tchoice<go>: Hi" (by decide) (by decide),
   (c5_indentation_qualification.2.2 c5State "    choice<go>: Hi" c5Scene rfl
      (by decide)).trans (by decide)⟩

/-- An emotion line whose second colon-segment is missing or empty makes
addEmotion abort with the missing-path error. -/
theorem addEmotion_empty_path (line : String) (ch : Character)
    (hp : ((jsSplit ':' line)[1]?).getD "" = "") :
    addEmotion line (some ch) = .error (.thrown "An emotion declaration must have a path!") := by
  simp only [addEmotion]
  cases hsplit : (jsSplit ':' line)[1]? with
  | none => rfl
  | some p =>
    rw [hsplit] at hp
    simp only [Option.getD_some] at hp
    subst hp
    rfl

/-- C6 counterexample: the scene declaration "scene intro:: extra"
carries non-whitespace text after the (first) colon — the text after
the first colon, trimmed, is ": extra" — yet the parse does not abort:
the forbidden-inline check inspects only the second ':'-segment, which
is empty here, and the line parses into a scene labelled "intro:". -/
theorem c6_fatal_paths_cex :
    Masoria.main "scene intro:: extra" =
      .ok { scenes := [{ label := "intro:", isEndingScene := false, dialogues := [] }]
            characters := [] } ∧
    (textAfterFirstColon "scene intro:: extra").map jsTrim = some ": extra" := by
  decide

/-- A line whose second ':'-segment still holds non-whitespace content
is flagged by the forbidden-inline check. -/
theorem hasForbiddenInline_inline (line t : String)
    (h1 : (jsSplit ':' line)[1]? = some t) (h2 : jsTrimChars t.data ≠ []) :
    hasForbiddenInline line = .ok true := by
  rw [hasForbiddenInline, h1]
  cases htd : jsTrimChars t.data with
  | nil => exact absurd htd h2
  | cons a l => simp [htd]

/-- A scene line whose second ':'-segment holds non-whitespace content
makes makeScene abort with the forbidden-inline error. -/
theorem makeScene_inline (line t : String)
    (h1 : (jsSplit ':' line)[1]? = some t) (h2 : jsTrimChars t.data ≠ []) :
    makeScene line =
      .error (.thrown "Inline instructions are forbidden in this context (scenes)!") := by
  rw [makeScene, hasForbiddenInline_inline line t h1 h2]

/-- C6 (amended): a recognized choice line with no open scene aborts the
parse with the choice-outside-scene error; a recognized emotion line
with an open character but an empty or missing path aborts with the
missing-path error; a recognized scene declaration whose SECOND
':'-segment (the text between the first and second colons, or to the
end when there is only one colon) contains non-whitespace text, such as
"scene intro: extra text", aborts with the forbidden-inline error; and
concretely, a lone choice line, the script "character Bob:" /
"emotion happy:", and "scene intro: extra text" all abort with the
respective thrown errors and produce no result. -/
theorem c6_fatal_paths_amended :
    (∀ (st : LoopState) (line : String),
       hasKeyword .choice line 1 = true → st.currentScene = none →
       processLine st line = .error (.thrown "Choice must be inside a scene!")) ∧
    (∀ (st : LoopState) (line : String) (ch : Character),
       hasKeyword .emotion line 1 = true → st.currentCharacter = some ch →
       ((jsSplit ':' line)[1]?).getD "" = "" →
       processLine st line = .error (.thrown "An emotion declaration must have a path!")) ∧
    (∀ (st : LoopState) (line t : String),
       hasKeyword .scene line 0 = true →
       (jsSplit ':' line)[1]? = some t →
       jsTrimChars t.data ≠ [] →
       processLine st line =
         .error (.thrown "Inline instructions are forbidden in this context (scenes)!")) ∧
    Masoria.main "    choice<go>: Hi" = .error (.thrown "Choice must be inside a scene!") ∧
    Masoria.main "character Bob:\n    emotion happy:" =
      .error (.thrown "An emotion declaration must have a path!") ∧
    Masoria.main "scene intro: extra text" =
      .error (.thrown "Inline instructions are forbidden in this context (scenes)!") := by
  refine ⟨?_, ?_, ?_, by decide, by decide, by decide⟩
  · intro st line hk hcur
    rw [processLine_choice hk, hcur]
    rfl
  · intro st line ch hk hcur hp
    rw [processLine_emotion hk, hcur, addEmotion_empty_path line ch hp]
    rfl
  · intro st line t hk h1 h2
    rw [processLine_scene hk, makeScene_inline line t h1 h2]
    rfl

/-- Witness for C6: the three hypothetical fatal paths fire at concrete
inputs. -/
theorem c6_fatal_paths_amended_witness :
    processLine c6State "    choice<go>: Hi" = .error (.thrown "Choice must be inside a scene!") ∧
    processLine c6CharState "    emotion happy:" =
      .error (.thrown "An emotion declaration must have a path!") ∧
    processLine c6State "scene intro: extra text" =
      .error (.thrown "Inline instructions are forbidden in this context (scenes)!") :=
  ⟨c6_fatal_paths_amended.1 c6State "    choice<go>: Hi" (by decide) rfl,
   c6_fatal_paths_amended.2.1 c6CharState "    emotion happy:" { name := "Bob", emotions := [] }
      (by decide) rfl (by decide),
   c6_fatal_paths_amended.2.2.1 c6State "scene intro: extra text" " extra text"
      (by decide) (by decide) (by decide)⟩

/-- C7 counterexample: on the choice line with two colons
"    choice<go>: Hello: world" the source stores display label "Hello"
(the trimmed text between the first and second colons), while the
trimmed text after the first colon is "Hello: world"; the label the
claim prescribes is not produced. -/
theorem c7_choice_label_cex :
    addChoice "    choice<go>: Hello: world" (some c7Scene) =
      .ok { c7Scene with choices := some [{ label := "Hello", targetScene := "go" }] } ∧
    (textAfterFirstColon "    choice<go>: Hello: world").map jsTrim = some "Hello: world" ∧
    ("Hello" : String) ≠ "Hello: world" := by
  decide

/-- C7 (amended): for a choice line whose instruction segment (before
the first colon) carries a nonempty parameter, the appended choice's
targetScene is that parameter and its display label is the trimmed
second colon-segment — the text between the first and second colons, or
to the end of the line when there is no second colon; a missing
parameter aborts the parse with the missing-target error. -/
theorem c7_choice_decomposition :
    (∀ (line : String) (sc : Scene) (t lbl : String),
       (getParameter ((jsSplit ':' line).headD "")).parameter = some t →
       t.data ≠ [] →
       (jsSplit ':' line)[1]? = some lbl →
       addChoice line (some sc) =
         .ok { sc with
               choices := some (sc.choices.getD [] ++ [{ label := jsTrim lbl, targetScene := t }]) }) ∧
    (∀ (line : String) (sc : Scene),
       (getParameter ((jsSplit ':' line).headD "")).parameter = none →
       addChoice line (some sc) = .error (.thrown "Choice must have a target scene!")) := by
  constructor
  · intro line sc t lbl hp ht hl
    have hne : t.data.isEmpty = false := by
      cases htd : t.data with
      | nil => exact absurd htd ht
      | cons a l => rfl
    simp only [addChoice, hp, hne, hl]
    cases hc : sc.choices with
    | none => simp [hc]
    | some cs => simp [hc]
  · intro line sc hp
    simp only [addChoice, hp]

/-- Witness for C7: a well-formed choice line appends its choice, and a
choice line without a parameter aborts. -/
theorem c7_choice_decomposition_witness :
    addChoice "    choice<go>: Go north" (some c7Scene) =
      .ok { c7Scene with choices := some [{ label := "Go north", targetScene := "go" }] } ∧
    addChoice "    choice: Go north" (some c7Scene) =
      .error (.thrown "Choice must have a target scene!") :=
  ⟨(c7_choice_decomposition.1 "    choice<go>: Go north" c7Scene "go" " Go north"
      (by decide) (by decide) (by decide)).trans (by decide),
   c7_choice_decomposition.2 "    choice: Go north" c7Scene (by decide)⟩

/-- C8 counterexample: on the emotion line with two colons
"    emotion happy: img:png" the source stores path "img" (the trimmed
text between the first and second colons), not the trimmed text after
the first colon "img:png". -/
theorem c8_emotion_path_cex :
    addEmotion "    emotion happy: img:png" (some c8Character) =
      .ok { c8Character with emotions := [("happy", "img")] } ∧
    (textAfterFirstColon "    emotion happy: img:png").map jsTrim = some "img:png" ∧
    ("img" : String) ≠ "img:png" := by
  decide

/-- C8 (amended): for an emotion line processed with an open character,
when the second colon-segment (the text between the first and second
colons, or to the end when there is no second colon) is nonempty, the
character's emotion mapping is updated at the second token of the
normalized instruction with the trimmed segment as path; an empty or
missing segment is a hard failure. -/
theorem c8_emotion_decomposition :
    (∀ (line : String) (ch : Character) (p nm : String),
       (jsSplit ':' line)[1]? = some p →
       p.data ≠ [] →
       (jsSplit ' ' (removeExtraSpaces ((jsSplit ':' line).headD "")))[1]? = some nm →
       addEmotion line (some ch) =
         .ok { ch with emotions := setKey ch.emotions nm (jsTrim p) }) ∧
    (∀ (line : String) (ch : Character),
       ((jsSplit ':' line)[1]?).getD "" = "" →
       addEmotion line (some ch) = .error (.thrown "An emotion declaration must have a path!")) := by
  constructor
  · intro line ch p nm hp hne hnm
    have hemp : p.data.isEmpty = false := by
      cases htd : p.data with
      | nil => exact absurd htd hne
      | cons a l => rfl
    simp only [addEmotion, hp, hemp, hnm]
    simp
  · intro line ch hp
    exact addEmotion_empty_path line ch hp

/-- Witness for C8: a well-formed emotion line records the trimmed path
under the emotion name, and one with an empty path aborts. -/
theorem c8_emotion_decomposition_witness :
    addEmotion "    emotion happy: a.png" (some c8Character) =
      .ok { c8Character with emotions := [("happy", "a.png")] } ∧
    addEmotion "    emotion happy:" (some c8Character) =
      .error (.thrown "An emotion declaration must have a path!") :=
  ⟨(c8_emotion_decomposition.1 "    emotion happy: a.png" c8Character " a.png" "happy"
      (by decide) (by decide) (by decide)).trans (by decide),
   c8_emotion_decomposition.2 "    emotion happy:" c8Character (by decide)⟩

/-- Flushing an open slot adds its count to the output length. -/
theorem pushOpt_length {α : Type} (xs : List α) (x? : Option α) :
    (pushOpt xs x?).length = xs.length + optCount x? := by
  cases x? <;> simp [pushOpt, optCount]

/-- A successful loop step increases the scene count (emitted plus open)
by one exactly on scene-start lines and the character count by one
exactly on character-start lines. -/
theorem processLine_counts (st st2 : LoopState) (l : String)
    (h : processLine st l = .ok st2) :
    st2.scenes.length + optCount st2.currentScene
        = st.scenes.length + optCount st.currentScene
          + (if hasKeyword .scene l 0 = true then 1 else 0) ∧
    st2.characters.length + optCount st2.currentCharacter
        = st.characters.length + optCount st.currentCharacter
          + (if hasKeyword .character l 0 = true then 1 else 0) := by
  by_cases h1 : hasKeyword .character l 0 = true
  · rw [processLine_character h1] at h
    have hsc : hasKeyword .scene l 0 = false := character_not_scene h1
    cases hm : makeCharacter l with
    | error e => rw [hm] at h; exact absurd h (by simp [Except.map])
    | ok c =>
      rw [hm] at h
      simp only [Except.map] at h
      injection h with h
      subst h
      refine ⟨by simp [optCount, hsc], ?_⟩
      simp [pushOpt_length, optCount, h1]
  · by_cases h2 : hasKeyword .emotion l 1 = true
    · rw [processLine_emotion h2] at h
      have hsc : hasKeyword .scene l 0 = false := emotion_not_scene h2
      cases hm : addEmotion l st.currentCharacter with
      | error e => rw [hm] at h; exact absurd h (by simp [Except.map])
      | ok c =>
        rw [hm] at h
        simp only [Except.map] at h
        injection h with h
        subst h
        cases hcur : st.currentCharacter with
        | none => rw [hcur] at hm; exact absurd hm (by rw [addEmotion]; simp)
        | some ch =>
          refine ⟨by simp [optCount, hsc], ?_⟩
          simp [optCount, hcur, h1]
    · by_cases h3 : hasKeyword .scene l 0 = true
      · rw [processLine_scene h3] at h
        have hch : hasKeyword .character l 0 = false := by
          rw [Bool.not_eq_true] at h1; exact h1
        cases hm : makeScene l with
        | error e => rw [hm] at h; exact absurd h (by simp [Except.map])
        | ok ns =>
          rw [hm] at h
          simp only [Except.map] at h
          cases hcur : st.currentScene with
          | some cur =>
            rw [hcur] at h
            injection h with h
            subst h
            refine ⟨?_, by simp [optCount, h1]⟩
            simp [optCount, hcur, h3, List.length_append]
          | none =>
            rw [hcur] at h
            injection h with h
            subst h
            refine ⟨?_, by simp [optCount, h1]⟩
            simp [optCount, hcur, h3]
      · by_cases h4 : hasKeyword .choice l 1 = true
        · rw [processLine_choice h4] at h
          cases hm : addChoice l st.currentScene with
          | error e => rw [hm] at h; exact absurd h (by simp [Except.map])
          | ok sc2 =>
            rw [hm] at h
            simp only [Except.map] at h
            injection h with h
            subst h
            cases hcur : st.currentScene with
            | none => rw [hcur] at hm; exact absurd hm (by rw [addChoice]; simp)
            | some sc =>
              refine ⟨?_, by simp [optCount, h1]⟩
              simp [optCount, hcur, h3]
        · rw [Bool.not_eq_true] at h1 h2 h3 h4
          rw [processLine_skip h1 h2 h3 h4] at h
          injection h with h
          subst h
          exact ⟨by simp [h3], by simp [h1]⟩

/-- A successful loop run adds to the scene count (emitted plus open)
exactly the number of scene-start lines, and likewise for character
starts. -/
theorem runLines_counts (ls : List String) : ∀ st st' : LoopState,
    runLines st ls = .ok st' →
    st'.scenes.length + optCount st'.currentScene
        = st.scenes.length + optCount st.currentScene
          + ls.countP (fun l => hasKeyword .scene l 0) ∧
    st'.characters.length + optCount st'.currentCharacter
        = st.characters.length + optCount st.currentCharacter
          + ls.countP (fun l => hasKeyword .character l 0) := by
  induction ls with
  | nil =>
    intro st st' h
    rw [runLines] at h
    injection h with h
    subst h
    simp
  | cons l rest ih =>
    intro st st' h
    rw [runLines] at h
    cases hp : processLine st l with
    | error e => rw [hp] at h; exact absurd h (by simp)
    | ok st2 =>
      rw [hp] at h
      obtain ⟨ih1, ih2⟩ := ih st2 st' h
      obtain ⟨s1, s2⟩ := processLine_counts st st2 l hp
      constructor
      · rw [List.countP_cons]
        by_cases hb : hasKeyword .scene l 0 = true
        · simp only [hb, if_pos] at s1 ⊢
          omega
        · rw [Bool.not_eq_true] at hb
          simp only [hb] at s1 ⊢
          omega
      · rw [List.countP_cons]
        by_cases hb : hasKeyword .character l 0 = true
        · simp only [hb, if_pos] at s2 ⊢
          omega
        · rw [Bool.not_eq_true] at hb
          simp only [hb] at s2 ⊢
          omega

/-- C9: when the parse completes, the number of returned scenes equals
the number of input lines recognized as scene statements at indentation
level 0, and the number of returned characters equals the number of
lines recognized as character statements at level 0. -/
theorem c9_entity_counts (script : String) (r : ParserResult)
    (h : Masoria.main script = .ok r) :
    r.scenes.length = (getLines script).countP (fun l => hasKeyword .scene l 0) ∧
    r.characters.length = (getLines script).countP (fun l => hasKeyword .character l 0) := by
  rw [main] at h
  cases hr : runLines { scenes := [], characters := [] } (getLines script) with
  | error e => rw [hr] at h; exact absurd h (by simp)
  | ok st =>
    rw [hr] at h
    injection h with h
    obtain ⟨hsc, hch⟩ := runLines_counts (getLines script) _ st hr
    subst h
    constructor
    · simp only []
      rw [organizeSceneRefs_length, pushOpt_length]
      simp only [optCount, List.length_nil] at hsc ⊢
      omega
    · simp only []
      rw [pushOpt_length]
      simp only [optCount, List.length_nil] at hch ⊢
      omega

/-- Witness for C9: the witness script parses successfully and the
counts line up — two scenes, one character. -/
theorem c9_entity_counts_witness :
    c9Result.scenes.length = (getLines c9Script).countP (fun l => hasKeyword .scene l 0) ∧
    c9Result.characters.length = (getLines c9Script).countP (fun l => hasKeyword .character l 0) ∧
    c9Result.scenes.length = 2 ∧ c9Result.characters.length = 1 :=
  ⟨(c9_entity_counts c9Script c9Result (by decide)).1,
   (c9_entity_counts c9Script c9Result (by decide)).2,
   by decide, by decide⟩
